import Mathlib

/-
Verification of the CLA signature bot orchestrator (src/claRunner.ts).

The orchestrator `ClaRunner.execute` is embedded as a pure function from an
environment (the results of every collaborator call, plus failure flags for
the fallible calls) to a result together with a trace of issued side effects.
Collaborators whose source is not part of the repository snapshot (`ClaFile`,
`AuthorMap`, `Author`) are modelled from the specification and marked as such.
-/

namespace ClaBot

/-- Modelled from the spec: `Author` (authorMap.ts, absent from the snapshot) —
identity of a commit contributor, keyed by its unique `name`. -/
structure Author where
  name : String
  deriving DecidableEq, Repr

/-- Modelled from the spec: `AuthorMap` (authorMap.ts, absent from the
snapshot) — a per-run map from each required author to a signed/unsigned
boolean, containing exactly the authors passed at construction. -/
abbrev AuthorMap := List (Author × Bool)

/-- Modelled from the spec: `allSigned()` is true iff every entry is signed. -/
def AuthorMap.allSigned (m : AuthorMap) : Bool := m.all (fun e => e.2)

/-- Modelled from the spec: `ClaFile` (claFile.ts, absent from the snapshot) —
the in-memory signature ledger, an ordered list of signed author identities in
which an identity appears at most once. -/
structure ClaFile where
  signedNames : List String
  deriving DecidableEq, Repr

/-- Modelled from the spec: map requested authors against known signatures,
yielding the signed/unsigned status of each requested author. -/
def ClaFile.mapSignedAuthors (f : ClaFile) (authors : List Author) : AuthorMap :=
  authors.map (fun a => (a, f.signedNames.contains a.name))

/-- Modelled from the spec: append new signatures to the ledger, returning the
updated file and only the authors newly added (already-present identities are
skipped, preserving the at-most-once invariant). -/
def ClaFile.addSignature (f : ClaFile) (authors : List Author) : ClaFile × List Author :=
  match authors with
  | [] => (f, [])
  | a :: rest =>
    if f.signedNames.contains a.name then
      ClaFile.addSignature f rest
    else
      let r := ClaFile.addSignature (ClaFile.mk (f.signedNames ++ [a.name])) rest
      (r.1, a :: r.2)

/-- One observable side effect issued during a run: a log line, a collaborator
or platform API call, or the process-level failure signal. -/
inductive Effect where
  | logInfo (msg : String)
  | logDebug (msg : String)
  | logError (msg : String)
  | lockApiCall (owner repo : String) (issueNumber : Nat)
  | getAuthorsCall
  | listMembersCall (org : String)
  | getClaFileCall
  | getNewSignaturesCall (m : AuthorMap)
  | commitClaFileCall (message : String)
  | postToBlockchainCall (sigs : List Author)
  | setClaCommentCall (m : AuthorMap)
  | rerunLastCheckCall
  | setFailedSignal (msg : String)
  deriving DecidableEq, Repr

/-- Effects that are calls to a collaborator or the platform API (as opposed to
log lines and the process-level failure signal). -/
def Effect.isCollabCall : Effect → Bool
  | Effect.lockApiCall _ _ _ => true
  | Effect.getAuthorsCall => true
  | Effect.listMembersCall _ => true
  | Effect.getClaFileCall => true
  | Effect.getNewSignaturesCall _ => true
  | Effect.commitClaFileCall _ => true
  | Effect.postToBlockchainCall _ => true
  | Effect.setClaCommentCall _ => true
  | Effect.rerunLastCheckCall => true
  | _ => false

/-- Effects that write to the outside world (commit, notarization, comment
publication, check rerun, lock); reads and logs are excluded. -/
def Effect.isWrite : Effect → Bool
  | Effect.lockApiCall _ _ _ => true
  | Effect.commitClaFileCall _ => true
  | Effect.postToBlockchainCall _ => true
  | Effect.setClaCommentCall _ => true
  | Effect.rerunLastCheckCall => true
  | _ => false

/-- The environment of one run: the triggering event, the settings, and the
result of every collaborator call `execute` may make.  Fallible calls carry a
failure flag (true = the underlying promise rejects). -/
structure Env where
  payloadAction : String
  issueIsPullRequest : Bool
  allowOrganizationMembers : Bool
  orgMembers : List String
  authors : List Author
  isUserAllowlisted : Author → Bool
  claFile : ClaFile
  getNewSignatures : AuthorMap → List Author
  localRepositoryOwner : String
  localRepositoryName : String
  pullRequestNumber : Nat
  lockFails : Bool
  commitFails : Bool
  postToBlockchainFails : Bool
  setClaCommentFails : Bool
  rerunFails : Bool

/-- `ClaRunner.lockPullRequest` (claRunner.ts lines 98-110): logs, issues the
platform lock call, and catches any failure, logging it instead of
propagating.  The returned value is the trace of issued effects; the absence
of an `Except` layer reflects the try/catch swallowing the error. -/
def lockPullRequest (env : Env) : List Effect :=
  [Effect.logInfo ("Locking pull request #" ++ toString env.pullRequestNumber ++
      " to safe guard the pull request's CLA signatures."),
   Effect.lockApiCall env.localRepositoryOwner env.localRepositoryName env.pullRequestNumber] ++
  (if env.lockFails then
    [Effect.logError ("Failed to lock pull request #" ++ toString env.pullRequestNumber ++ ".")]
  else
    [Effect.logInfo ("Successfully locked pull request #" ++ toString env.pullRequestNumber ++ ".")])

/-- `ClaRunner.getOrganizationMembers` (claRunner.ts lines 112-121): returns
the empty list without any API call when the organization-member exemption is
disabled, otherwise lists the members of the repository owner organization. -/
def getOrganizationMembers (env : Env) : List String × List Effect :=
  if !env.allowOrganizationMembers then ([], [])
  else (env.orgMembers, [Effect.listMembersCall env.localRepositoryOwner])

/-- `requiredAuthors` (claRunner.ts line 62): the fetched authors that are
neither allowlisted nor in the fetched organization-member list. -/
def requiredAuthors (env : Env) : List Author :=
  env.authors.filter (fun a =>
    !env.isUserAllowlisted a && !(getOrganizationMembers env).1.contains a.name)

/-- `authorMap` as first computed at claRunner.ts line 73. -/
def initialAuthorMap (env : Env) : AuthorMap :=
  env.claFile.mapSignedAuthors (requiredAuthors env)

/-- The result of `claFile.addSignature(await getNewSignatures(authorMap))`
(claRunner.ts line 75): the updated ledger and the newly added signatures. -/
def addResult (env : Env) : ClaFile × List Author :=
  env.claFile.addSignature (env.getNewSignatures (initialAuthorMap env))

/-- `newSignature` (claRunner.ts line 75). -/
def newSignature (env : Env) : List Author := (addResult env).2

/-- `authorMap` as recomputed at claRunner.ts line 79 from the updated file. -/
def recomputedAuthorMap (env : Env) : AuthorMap :=
  (addResult env).1.mapSignedAuthors (requiredAuthors env)

/-- The author map in force at the final `allSigned` check (claRunner.ts line
90): the recomputed map when new signatures were added, the initial map
otherwise. -/
def finalAuthorMap (env : Env) : AuthorMap :=
  if 0 < (newSignature env).length then recomputedAuthorMap env else initialAuthorMap env

/-- `ClaRunner.execute` (claRunner.ts lines 46-96).  Returns the resolution of
the promise (`Except.ok` with the pass/fail boolean, or `Except.error` when a
collaborator rejection propagates) paired with the trace of issued effects, in
issue order; the calls of each `Promise.all` group appear in construction
order and all members of a group are issued even when one of them rejects. -/
def execute (env : Env) : Except Unit Bool × List Effect :=
  if env.payloadAction = "closed" then
    (Except.ok true, lockPullRequest env)
  else if env.payloadAction = "issue_comment" ∧ env.issueIsPullRequest = false then
    (Except.ok true, [Effect.logInfo "Skipping issue comment"])
  else
    let fetchTrace := Effect.getAuthorsCall :: (getOrganizationMembers env).2
    let required := requiredAuthors env
    if required.length = 0 then
      (Except.ok true,
        fetchTrace ++ [Effect.logInfo "No committers left after allowlisting. Approving pull request."])
    else
      let authorMap := initialAuthorMap env
      let newSigs := newSignature env
      let preTrace := fetchTrace ++
        [Effect.logDebug ("Found a total of " ++ toString required.length ++
            " authors after allowlisting."),
         Effect.logDebug ("Authors: " ++ String.intercalate ", " (required.map Author.name)),
         Effect.getClaFileCall, Effect.getNewSignaturesCall authorMap]
      if 0 < newSigs.length then
        let newNames := String.intercalate ", " (newSigs.map Author.name)
        let authorMap2 := recomputedAuthorMap env
        let trace := preTrace ++
          [Effect.logDebug ("Found new signatures: " ++ newNames ++ "."),
           Effect.commitClaFileCall ("Add " ++ newNames ++ "."),
           Effect.postToBlockchainCall newSigs,
           Effect.setClaCommentCall authorMap2,
           Effect.rerunLastCheckCall]
        if env.commitFails || env.postToBlockchainFails ||
            env.setClaCommentFails || env.rerunFails then
          (Except.error (), trace)
        else if !(AuthorMap.allSigned authorMap2) then
          (Except.ok false, trace ++ [Effect.setFailedSignal "Waiting on additional CLA signatures."])
        else
          (Except.ok true, trace)
      else
        let trace := preTrace ++ [Effect.setClaCommentCall authorMap]
        if env.setClaCommentFails then
          (Except.error (), trace)
        else if !(AuthorMap.allSigned authorMap) then
          (Except.ok false, trace ++ [Effect.setFailedSignal "Waiting on additional CLA signatures."])
        else
          (Except.ok true, trace)
/-- A run environment on the evaluation path: PR opened, alice required
(bob allowlisted), empty ledger, no confirmations, nothing failing. -/
def baseEnv : Env :=
  { payloadAction := "opened"
    issueIsPullRequest := false
    allowOrganizationMembers := false
    orgMembers := []
    authors := [Author.mk "alice", Author.mk "bob"]
    isUserAllowlisted := fun a => a.name == "bob"
    claFile := ClaFile.mk []
    getNewSignatures := fun _ => []
    localRepositoryOwner := "octo"
    localRepositoryName := "repo"
    pullRequestNumber := 7
    lockFails := false
    commitFails := false
    postToBlockchainFails := false
    setClaCommentFails := false
    rerunFails := false }

/-- `baseEnv` with alice confirming a signature and only the blockchain
notarization call rejecting. -/
def postFailEnv : Env :=
  { baseEnv with
    getNewSignatures := fun _ => [Author.mk "alice"]
    postToBlockchainFails := true }


/-- `baseEnv` with alice confirming a signature and every call succeeding. -/
def signEnv : Env :=
  { baseEnv with getNewSignatures := fun _ => [Author.mk "alice"] }

/-- `baseEnv` triggered by a "closed" event. -/
def closedEnv : Env :=
  { baseEnv with payloadAction := "closed" }

/-- `closedEnv` with the platform lock call failing. -/
def lockFailEnv : Env :=
  { closedEnv with lockFails := true }

/-- `baseEnv` with every author allowlisted. -/
def allowAllEnv : Env :=
  { baseEnv with isUserAllowlisted := fun _ => true }

/-- `baseEnv` triggered by an issue comment on a plain (non-PR) issue. -/
def issueEnv : Env :=
  { baseEnv with payloadAction := "issue_comment" }

/-- Claim C3: allowlisted or organization-member authors never appear in
requiredAuthors; requiredAuthors is the order-preserving filter of the
fetched author list. -/
theorem requiredAuthors_spec (env : Env) :
    (∀ a ∈ env.authors,
      (env.isUserAllowlisted a = true ∨ a.name ∈ (getOrganizationMembers env).1) →
        a ∉ requiredAuthors env) ∧
    (requiredAuthors env).Sublist env.authors ∧
    ∀ a, a ∈ requiredAuthors env ↔
      a ∈ env.authors ∧ env.isUserAllowlisted a = false ∧
        a.name ∉ (getOrganizationMembers env).1 := by
  refine ⟨?_, List.filter_sublist _, ?_⟩
  · intro a _ hex hmem
    rw [requiredAuthors, List.mem_filter] at hmem
    rcases hex with h | h
    · simp [h] at hmem
    · simp [h] at hmem
  · intro a
    rw [requiredAuthors, List.mem_filter]
    simp [List.contains, List.elem_eq_mem]

/-- Claim C4: on a "closed" event, execute locks the pull request and returns
true unconditionally; the lock call is the only collaborator call issued. -/
theorem execute_closed_locks (env : Env) (h : env.payloadAction = "closed") :
    (execute env).1 = Except.ok true ∧
    Effect.lockApiCall env.localRepositoryOwner env.localRepositoryName env.pullRequestNumber
      ∈ (execute env).2 ∧
    ∀ e ∈ (execute env).2, e.isCollabCall = true →
      e = Effect.lockApiCall env.localRepositoryOwner env.localRepositoryName
            env.pullRequestNumber := by
  rw [execute, if_pos h]
  refine ⟨rfl, ?_, ?_⟩
  · cases hl : env.lockFails <;> simp [lockPullRequest, hl]
  · intro e he hc
    cases hl : env.lockFails <;>
      simp [lockPullRequest, hl] at he <;>
      rcases he with he | he | he <;>
      simp [he, Effect.isCollabCall] at hc ⊢

/-- Claim C8: an issue-comment event not attached to a pull request is a
no-op returning true, with no collaborator call at all. -/
theorem execute_issue_comment_skip (env : Env)
    (ha : env.payloadAction = "issue_comment") (hb : env.issueIsPullRequest = false) :
    execute env = (Except.ok true, [Effect.logInfo "Skipping issue comment"]) ∧
    ∀ e ∈ (execute env).2, e.isCollabCall = false := by
  have hne : env.payloadAction ≠ "closed" := by rw [ha]; decide
  rw [execute, if_neg hne, if_pos ⟨ha, hb⟩]
  refine ⟨rfl, ?_⟩
  intro e he
  simp at he
  simp [he, Effect.isCollabCall]

/-- Claim C9: a lock failure on a "closed" event is logged and swallowed:
execute still resolves to true, never to an error. -/
theorem execute_lock_failure_swallowed (env : Env)
    (h : env.payloadAction = "closed") (hf : env.lockFails = true) :
    (execute env).1 = Except.ok true ∧
    Effect.logError ("Failed to lock pull request #" ++ toString env.pullRequestNumber ++ ".")
      ∈ (execute env).2 := by
  rw [execute, if_pos h]
  exact ⟨rfl, by simp [lockPullRequest, hf]⟩

/-- Claim C7: when no required author remains after filtering, execute
returns true with no write side effect and without loading the CLA file. -/
theorem execute_no_required_authors (env : Env)
    (h1 : env.payloadAction ≠ "closed")
    (h2 : ¬(env.payloadAction = "issue_comment" ∧ env.issueIsPullRequest = false))
    (h3 : requiredAuthors env = []) :
    (execute env).1 = Except.ok true ∧
    (execute env).2.filter Effect.isWrite = [] ∧
    Effect.getClaFileCall ∉ (execute env).2 := by
  rw [execute, if_neg h1, if_neg h2]
  simp only [h3, List.length_nil, if_pos rfl]
  cases hm : env.allowOrganizationMembers <;>
    simp [getOrganizationMembers, hm, Effect.isWrite]

/-- Claim C10: with the organization-member exemption disabled, the member
list used for filtering is empty, no membership API call is issued anywhere
in the run, and every non-allowlisted author stays in requiredAuthors. -/
theorem org_members_disabled (env : Env) (h : env.allowOrganizationMembers = false) :
    getOrganizationMembers env = ([], []) ∧
    (∀ org, Effect.listMembersCall org ∉ (execute env).2) ∧
    requiredAuthors env = env.authors.filter (fun a => !env.isUserAllowlisted a) ∧
    ∀ a ∈ env.authors, env.isUserAllowlisted a = false → a ∈ requiredAuthors env := by
  have hg : getOrganizationMembers env = ([], []) := by
    simp [getOrganizationMembers, h]
  have hreq : requiredAuthors env = env.authors.filter (fun a => !env.isUserAllowlisted a) := by
    rw [requiredAuthors, hg]
    simp [List.contains]
  refine ⟨hg, ?_, hreq, ?_⟩
  · intro org
    rw [execute]
    split_ifs with hc hi <;>
      simp [lockPullRequest, hg] <;>
      split_ifs <;> simp
  · intro a ha hal
    rw [hreq, List.mem_filter]
    exact ⟨ha, by simp [hal]⟩

/-- When `addSignature` adds nothing new, the ledger is unchanged. -/
theorem addSignature_snd_nil (as : List Author) (f : ClaFile)
    (h : (ClaFile.addSignature f as).2 = []) : (ClaFile.addSignature f as).1 = f := by
  induction as generalizing f with
  | nil => rfl
  | cons a rest ih =>
    by_cases hc : f.signedNames.contains a.name
    · rw [ClaFile.addSignature] at h ⊢
      simp only [hc, if_true] at h ⊢
      exact ih f h
    · rw [ClaFile.addSignature, if_neg hc] at h
      simp at h

/-- Claim C6: on the evaluation path with no new signatures, the single
write side effect is one setClaComment with the unchanged map, and the
in-memory ledger is unchanged (no commit, notarization or check rerun). -/
theorem execute_no_new_signatures_frame (env : Env)
    (h1 : env.payloadAction ≠ "closed")
    (h2 : ¬(env.payloadAction = "issue_comment" ∧ env.issueIsPullRequest = false))
    (h3 : requiredAuthors env ≠ [])
    (hn : newSignature env = []) :
    (execute env).2.filter Effect.isWrite = [Effect.setClaCommentCall (initialAuthorMap env)] ∧
    (addResult env).1 = env.claFile := by
  have h3' : ¬ (requiredAuthors env).length = 0 := by simpa using h3
  refine ⟨?_, addSignature_snd_nil _ _ hn⟩
  rw [execute, if_neg h1, if_neg h2]
  simp only [h3', if_false, hn, List.length_nil, Nat.lt_irrefl, if_neg]
  cases hm : env.allowOrganizationMembers <;>
    split_ifs <;>
    simp [getOrganizationMembers, hm, Effect.isWrite]

/-- Claim C1: on the evaluation path with a non-empty requiredAuthors and no
collaborator rejection, execute resolves to allSigned of the final author
map, and raises the blocking failure signal whenever that value is false. -/
theorem execute_eval_result (env : Env)
    (h1 : env.payloadAction ≠ "closed")
    (h2 : ¬(env.payloadAction = "issue_comment" ∧ env.issueIsPullRequest = false))
    (h3 : requiredAuthors env ≠ [])
    (hc : env.commitFails = false) (hp : env.postToBlockchainFails = false)
    (hs : env.setClaCommentFails = false) (hr : env.rerunFails = false) :
    (execute env).1 = Except.ok (AuthorMap.allSigned (finalAuthorMap env)) ∧
    (AuthorMap.allSigned (finalAuthorMap env) = false →
      Effect.setFailedSignal "Waiting on additional CLA signatures." ∈ (execute env).2) := by
  have h3' : ¬ (requiredAuthors env).length = 0 := by simpa using h3
  rw [execute, if_neg h1, if_neg h2]
  simp only [h3', if_false, hc, hp, hs, hr, Bool.or_self, Bool.false_or]
  unfold finalAuthorMap
  by_cases hn : 0 < (newSignature env).length
  · simp only [hn, if_pos, if_true]
    by_cases ha : AuthorMap.allSigned (recomputedAuthorMap env)
    · simp [hn, ha]
    · simp [hn, ha]
  · simp only [hn, if_false]
    by_cases ha : AuthorMap.allSigned (initialAuthorMap env)
    · simp [hn, ha]
    · simp [hn, ha]

/-- Claim C2: when new signatures were confirmed, execute recomputes the
author map from the updated ledger, issues all four of commit (with a message
naming exactly the new signers), blockchain post (with the new signatures),
comment refresh (with the recomputed map) and check rerun, and only after all
four does the final pass/fail determination happen. -/
theorem execute_new_signature_group (env : Env)
    (h1 : env.payloadAction ≠ "closed")
    (h2 : ¬(env.payloadAction = "issue_comment" ∧ env.issueIsPullRequest = false))
    (h3 : requiredAuthors env ≠ [])
    (hn : 0 < (newSignature env).length)
    (hc : env.commitFails = false) (hp : env.postToBlockchainFails = false)
    (hs : env.setClaCommentFails = false) (hr : env.rerunFails = false) :
    ∃ pre : List Effect,
      (execute env).2 = pre ++
        (if AuthorMap.allSigned (recomputedAuthorMap env) then []
         else [Effect.setFailedSignal "Waiting on additional CLA signatures."]) ∧
      Effect.commitClaFileCall
        ("Add " ++ String.intercalate ", " ((newSignature env).map Author.name) ++ ".") ∈ pre ∧
      Effect.postToBlockchainCall (newSignature env) ∈ pre ∧
      Effect.setClaCommentCall (recomputedAuthorMap env) ∈ pre ∧
      Effect.rerunLastCheckCall ∈ pre ∧
      (execute env).1 = Except.ok (AuthorMap.allSigned (recomputedAuthorMap env)) := by
  have h3' : ¬ (requiredAuthors env).length = 0 := by simpa using h3
  rw [execute, if_neg h1, if_neg h2]
  simp only [h3', if_false, hn, if_true, hc, hp, hs, hr, Bool.or_self, Bool.false_or]
  refine ⟨(Effect.getAuthorsCall :: (getOrganizationMembers env).2) ++
    [Effect.logDebug ("Found a total of " ++ toString (requiredAuthors env).length ++
        " authors after allowlisting."),
     Effect.logDebug ("Authors: " ++
        String.intercalate ", " ((requiredAuthors env).map Author.name)),
     Effect.getClaFileCall, Effect.getNewSignaturesCall (initialAuthorMap env),
     Effect.logDebug ("Found new signatures: " ++
        String.intercalate ", " ((newSignature env).map Author.name) ++ "."),
     Effect.commitClaFileCall
       ("Add " ++ String.intercalate ", " ((newSignature env).map Author.name) ++ "."),
     Effect.postToBlockchainCall (newSignature env),
     Effect.setClaCommentCall (recomputedAuthorMap env),
     Effect.rerunLastCheckCall], ?_, by simp, by simp, by simp, by simp, ?_⟩
  · by_cases ha : AuthorMap.allSigned (recomputedAuthorMap env) <;> simp [ha]
  · by_cases ha : AuthorMap.allSigned (recomputedAuthorMap env) <;> simp [ha]

/-- Claim C5 counterexample: with only the notarization call failing (new
signature present, commit, comment and rerun all succeeding), execute rejects
and the final pass/fail determination never happens: no boolean is returned
and no failure signal is raised. -/
theorem execute_post_failure_cex :
    newSignature postFailEnv ≠ [] ∧
    postFailEnv.postToBlockchainFails = true ∧
    postFailEnv.commitFails = false ∧
    postFailEnv.setClaCommentFails = false ∧
    postFailEnv.rerunFails = false ∧
    (execute postFailEnv).1 = Except.error () ∧
    (∀ b : Bool, (execute postFailEnv).1 ≠ Except.ok b) ∧
    Effect.setFailedSignal "Waiting on additional CLA signatures." ∉ (execute postFailEnv).2 := by
  refine ⟨by decide, rfl, rfl, rfl, rfl, rfl, ?_, by decide⟩
  intro b h
  have h2 : (Except.error () : Except Unit Bool) = Except.ok b := h
  exact Except.noConfusion h2

/-- Claim C5 amended: a postToBlockchain failure does abort the main flow —
all four group calls are still issued, but execute propagates the rejection
and the final pass/fail determination (and any failure signal) never runs. -/
theorem execute_post_failure_aborts (env : Env)
    (h1 : env.payloadAction ≠ "closed")
    (h2 : ¬(env.payloadAction = "issue_comment" ∧ env.issueIsPullRequest = false))
    (h3 : requiredAuthors env ≠ [])
    (hn : 0 < (newSignature env).length)
    (hp : env.postToBlockchainFails = true) :
    (execute env).1 = Except.error () ∧
    Effect.commitClaFileCall
      ("Add " ++ String.intercalate ", " ((newSignature env).map Author.name) ++ ".")
      ∈ (execute env).2 ∧
    Effect.postToBlockchainCall (newSignature env) ∈ (execute env).2 ∧
    Effect.setClaCommentCall (recomputedAuthorMap env) ∈ (execute env).2 ∧
    Effect.rerunLastCheckCall ∈ (execute env).2 ∧
    ∀ m, Effect.setFailedSignal m ∉ (execute env).2 := by
  have h3' : ¬ (requiredAuthors env).length = 0 := by simpa using h3
  rw [execute, if_neg h1, if_neg h2]
  simp only [h3', if_false, hn, if_true, hp, Bool.or_true, Bool.true_or]
  cases hm : env.allowOrganizationMembers <;>
    simp [getOrganizationMembers, hm]

/-- Witness for execute_eval_result: the hypotheses hold at baseEnv. -/
theorem execute_eval_result_witness :
    (execute baseEnv).1 = Except.ok (AuthorMap.allSigned (finalAuthorMap baseEnv)) ∧
    (AuthorMap.allSigned (finalAuthorMap baseEnv) = false →
      Effect.setFailedSignal "Waiting on additional CLA signatures." ∈ (execute baseEnv).2) :=
  execute_eval_result baseEnv (by decide) (by decide) (by decide) rfl rfl rfl rfl

/-- Witness for execute_new_signature_group: the hypotheses hold at signEnv. -/
theorem execute_new_signature_group_witness :
    ∃ pre : List Effect,
      (execute signEnv).2 = pre ++
        (if AuthorMap.allSigned (recomputedAuthorMap signEnv) then []
         else [Effect.setFailedSignal "Waiting on additional CLA signatures."]) ∧
      Effect.commitClaFileCall
        ("Add " ++ String.intercalate ", " ((newSignature signEnv).map Author.name) ++ ".")
        ∈ pre ∧
      Effect.postToBlockchainCall (newSignature signEnv) ∈ pre ∧
      Effect.setClaCommentCall (recomputedAuthorMap signEnv) ∈ pre ∧
      Effect.rerunLastCheckCall ∈ pre ∧
      (execute signEnv).1 = Except.ok (AuthorMap.allSigned (recomputedAuthorMap signEnv)) :=
  execute_new_signature_group signEnv (by decide) (by decide) (by decide) (by decide)
    rfl rfl rfl rfl

/-- Witness for execute_closed_locks: the hypothesis holds at closedEnv. -/
theorem execute_closed_locks_witness :
    (execute closedEnv).1 = Except.ok true ∧
    Effect.lockApiCall closedEnv.localRepositoryOwner closedEnv.localRepositoryName
      closedEnv.pullRequestNumber ∈ (execute closedEnv).2 ∧
    ∀ e ∈ (execute closedEnv).2, e.isCollabCall = true →
      e = Effect.lockApiCall closedEnv.localRepositoryOwner closedEnv.localRepositoryName
            closedEnv.pullRequestNumber :=
  execute_closed_locks closedEnv rfl

/-- Witness for execute_post_failure_aborts: the hypotheses hold at
postFailEnv. -/
theorem execute_post_failure_aborts_witness :
    (execute postFailEnv).1 = Except.error () ∧
    Effect.commitClaFileCall
      ("Add " ++ String.intercalate ", " ((newSignature postFailEnv).map Author.name) ++ ".")
      ∈ (execute postFailEnv).2 ∧
    Effect.postToBlockchainCall (newSignature postFailEnv) ∈ (execute postFailEnv).2 ∧
    Effect.setClaCommentCall (recomputedAuthorMap postFailEnv) ∈ (execute postFailEnv).2 ∧
    Effect.rerunLastCheckCall ∈ (execute postFailEnv).2 ∧
    ∀ m, Effect.setFailedSignal m ∉ (execute postFailEnv).2 :=
  execute_post_failure_aborts postFailEnv (by decide) (by decide) (by decide) (by decide) rfl

/-- Witness for execute_no_new_signatures_frame: the hypotheses hold at
baseEnv. -/
theorem execute_no_new_signatures_frame_witness :
    (execute baseEnv).2.filter Effect.isWrite
      = [Effect.setClaCommentCall (initialAuthorMap baseEnv)] ∧
    (addResult baseEnv).1 = baseEnv.claFile :=
  execute_no_new_signatures_frame baseEnv (by decide) (by decide) (by decide) (by decide)

/-- Witness for execute_no_required_authors: the hypotheses hold at
allowAllEnv. -/
theorem execute_no_required_authors_witness :
    (execute allowAllEnv).1 = Except.ok true ∧
    (execute allowAllEnv).2.filter Effect.isWrite = [] ∧
    Effect.getClaFileCall ∉ (execute allowAllEnv).2 :=
  execute_no_required_authors allowAllEnv (by decide) (by decide) (by decide)

/-- Witness for execute_issue_comment_skip: the hypotheses hold at issueEnv. -/
theorem execute_issue_comment_skip_witness :
    execute issueEnv = (Except.ok true, [Effect.logInfo "Skipping issue comment"]) ∧
    ∀ e ∈ (execute issueEnv).2, e.isCollabCall = false :=
  execute_issue_comment_skip issueEnv rfl rfl

/-- Witness for execute_lock_failure_swallowed: the hypotheses hold at
lockFailEnv. -/
theorem execute_lock_failure_swallowed_witness :
    (execute lockFailEnv).1 = Except.ok true ∧
    Effect.logError ("Failed to lock pull request #" ++
        toString lockFailEnv.pullRequestNumber ++ ".") ∈ (execute lockFailEnv).2 :=
  execute_lock_failure_swallowed lockFailEnv rfl rfl

/-- Witness for org_members_disabled: the hypothesis holds at baseEnv. -/
theorem org_members_disabled_witness :
    getOrganizationMembers baseEnv = ([], []) ∧
    (∀ org, Effect.listMembersCall org ∉ (execute baseEnv).2) ∧
    requiredAuthors baseEnv = baseEnv.authors.filter (fun a => !baseEnv.isUserAllowlisted a) ∧
    ∀ a ∈ baseEnv.authors, baseEnv.isUserAllowlisted a = false → a ∈ requiredAuthors baseEnv :=
  org_members_disabled baseEnv rfl

/-- Witness for requiredAuthors_spec: instantiated at baseEnv, it shows the
allowlisted author bob is excluded while alice is required. -/
theorem requiredAuthors_spec_witness :
    Author.mk "bob" ∉ requiredAuthors baseEnv ∧ Author.mk "alice" ∈ requiredAuthors baseEnv :=
  ⟨(requiredAuthors_spec baseEnv).1 (Author.mk "bob") (by decide) (Or.inl (by decide)),
   ((requiredAuthors_spec baseEnv).2.2 (Author.mk "alice")).2 ⟨by decide, by decide, by decide⟩⟩

end ClaBot
